import Mathlib

set_option maxRecDepth 100000

/-!
Shallow embedding of `src/main.go` from the gitlab-issues-data repository.

The program fetches a fixed issue/timelog tree from the GitLab GraphQL API
and aggregates time spent.  The aggregation core (`getUserSpentTime`,
`getAllUsersSpentTime`) is embedded here faithfully:

* Go strings are Lean `String`s; the Go byte-wise string comparison
  `localSpentAt >= date` is embedded as a lexicographic comparison on the
  character lists (`goStrGe`), which agrees with the UTF-8 byte order Go
  uses on the ASCII date strings involved.
* `strings.Contains` is embedded as `goContains` (substring occurrence,
  true for the empty pattern, as in Go).
* `float32` accumulation `total += float32(timeSpent)/3600` is embedded
  over exact rationals `ℚ`.
* The Go `time` standard library (RFC3339 parsing, conversion to the local
  time zone, `Format("2006-01-02")`, `time.Now().AddDate`) is external
  library code, abstracted as a `TimeEnv` record: `parseLocalFmt s` is the
  formatted local calendar date of `time.Parse(time.RFC3339, s)` when the
  parse succeeds and `none` when it fails, `zeroTimeFmt` is the formatted
  local date of the zero `time.Time` (the value the ignored-error pattern
  `spentAt, _ := time.Parse(...)` leaves behind on failure), and
  `addDaysFmt k` is `time.Now().AddDate(0, 0, k).Format("2006-01-02")`.
* Go `map[string]float32` with `m[u] += v` is embedded as an association
  list with zero as the default value of a missing key (`mapAdd`,
  `mapGet`); a fresh key is appended, an existing key is updated in place.
* The bodies of the two aggregator functions are loops over the fetched
  tree that mutate local accumulators; they are embedded as folds over an
  explicit state record that also carries the (pointed-to) tree, so that
  the absence of mutation of the source data is itself a provable
  statement rather than a modelling assumption.
-/

/-- Boolean prefix test on character lists (component of the substring
test used to embed the Go `strings.Contains`). -/
def isPrefixOfL : List Char → List Char → Bool
  | [], _ => true
  | _ :: _, [] => false
  | a :: as, b :: bs => a == b && isPrefixOfL as bs

/-- Boolean substring-occurrence test on character lists: `hasSubstrL s sub`
is true iff `sub` occurs contiguously in `s` (true for `sub = []`). -/
def hasSubstrL : List Char → List Char → Bool
  | [], sub => isPrefixOfL sub []
  | c :: rest, sub => isPrefixOfL sub (c :: rest) || hasSubstrL rest sub

/-- Embedding of Go `strings.Contains(s, sub)`. -/
def goContains (s sub : String) : Bool := hasSubstrL s.data sub.data

/-- Character comparison by Unicode scalar value (on the ASCII strings the
program compares, identical to the Go byte comparison). -/
def goCharLt (a b : Char) : Bool := decide (a < b)

/-- Lexicographic strict order on character lists, embedding the Go
byte-wise string order restricted to the strings the program compares. -/
def goStrLtL : List Char → List Char → Bool
  | [], [] => false
  | [], _ :: _ => true
  | _ :: _, [] => false
  | a :: as, b :: bs =>
      if goCharLt a b then true else if goCharLt b a then false else goStrLtL as bs

/-- Embedding of the Go string comparison `a >= b` (negation of the strict
byte-wise order). -/
def goStrGe (a b : String) : Bool := !(goStrLtL a.data b.data)

/-- Timelog node of the GraphQL response: `{timeSpent, spentAt,
user.username}` (the one-field `user` object is flattened into the
username it carries). -/
structure Timelog where
  timeSpent : Int
  spentAt : String
  username : String
deriving DecidableEq

/-- Issue node of the GraphQL response: `{iid, title, timelogs.nodes}`. -/
structure Issue where
  iid : String
  title : String
  timelogs : List Timelog
deriving DecidableEq

/-- The fetched tree `project.issues.nodes` (struct `TimelogData` in the
source, with the fixed one-field wrappers flattened away). -/
structure TimelogData where
  issues : List Issue
deriving DecidableEq

/-- Abstraction of the facts the program uses from the Go `time` standard
library.  `parseLocalFmt s` is `some` of the local calendar date (already
formatted as `"2006-01-02"`) of the instant `time.Parse(time.RFC3339, s)`
when the parse succeeds, `none` when it fails; `zeroTimeFmt` is the
formatted local date of the zero `time.Time`; `addDaysFmt k` is
`time.Now().AddDate(0, 0, k).Format("2006-01-02")`. -/
structure TimeEnv where
  parseLocalFmt : String → Option String
  zeroTimeFmt : String
  addDaysFmt : Int → String

/-- Lines 83-84 / 108-109 of the source: `spentAt, _ := time.Parse(...)`
followed by `spentAt.In(local).Format("2006-01-02")`.  A parse failure is
ignored and leaves the zero `time.Time`, whose formatted local date is
`env.zeroTimeFmt`. -/
def localSpentAt (env : TimeEnv) (s : String) : String :=
  (env.parseLocalFmt s).getD env.zeroTimeFmt

/-- Hours contributed by one timelog: `float32(timelog.TimeSpent) / 3600`,
embedded over exact rationals. -/
def hoursOf (t : Int) : ℚ := (t : ℚ) / 3600

/-- Per-entry log line emitted by `getUserSpentTime` (line 88 of the
source): hours, formatted local date, issue iid and issue title. -/
structure LogLine where
  hours : ℚ
  date : String
  iid : String
  title : String
deriving DecidableEq

/-- Filter of the single-user loop (line 86 of the source):
`localSpentAt >= date && timelog.User.Username == username`. -/
def userIncluded (env : TimeEnv) (date username : String) (tl : Timelog) : Bool :=
  goStrGe (localSpentAt env tl.spentAt) date && (tl.username == username)

/-- The log line of line 88 of the source for one entry. -/
def userLineOf (env : TimeEnv) (issue : Issue) (tl : Timelog) : LogLine :=
  ⟨hoursOf tl.timeSpent, localSpentAt env tl.spentAt, issue.iid, issue.title⟩

/-- State of `getUserSpentTime`: the tree the pointer argument refers to,
the running total and the log lines emitted so far. -/
structure UserAggState where
  data : TimelogData
  totalSpentTime : ℚ
  lines : List LogLine
deriving DecidableEq

/-- Body of the inner loop of `getUserSpentTime` (lines 79-90): when the
filter passes, add `timeSpent/3600` to the running total and emit the
per-entry log line; otherwise leave the state unchanged. -/
def userStep (env : TimeEnv) (date username : String) (issue : Issue)
    (st : UserAggState) (tl : Timelog) : UserAggState :=
  if userIncluded env date username tl then
    { st with
      totalSpentTime := st.totalSpentTime + hoursOf tl.timeSpent,
      lines := st.lines ++ [userLineOf env issue tl] }
  else st

/-- The nested loops of `getUserSpentTime` (lines 72-93), with
`date := time.Now().AddDate(0, 0, -daysNum).Format("2006-01-02")`. -/
def getUserSpentTimeRun (env : TimeEnv) (daysNum : Int) (username : String)
    (st : UserAggState) : UserAggState :=
  let date := env.addDaysFmt (-daysNum)
  st.data.issues.foldl
    (fun s issue => issue.timelogs.foldl (userStep env date username issue) s) st

/-- Observable result of `getUserSpentTime`: the final total (line 92) and
the per-entry log lines (line 88), starting from the zero accumulators. -/
def getUserSpentTime (env : TimeEnv) (daysNum : Int) (username : String)
    (d : TimelogData) : ℚ × List LogLine :=
  let st := getUserSpentTimeRun env daysNum username ⟨d, 0, []⟩
  (st.totalSpentTime, st.lines)

/-- Embedding of the Go `map[string]float32` update `m[u] += v`: a missing
key reads as the zero value and is inserted, an existing key is updated in
place. -/
def mapAdd (m : List (String × ℚ)) (u : String) (v : ℚ) : List (String × ℚ) :=
  match m with
  | [] => [(u, v)]
  | (k, x) :: rest => if k == u then (k, x + v) :: rest else (k, x) :: mapAdd rest u v

/-- Lookup in the embedded Go map, with the zero value for a missing key. -/
def mapGet (m : List (String × ℚ)) (u : String) : ℚ :=
  match m with
  | [] => 0
  | (k, x) :: rest => if k == u then x else mapGet rest u

/-- Per-entry log line emitted by `getAllUsersSpentTime` (line 117 of the
source): hours, formatted local date, username, issue iid and issue
title. -/
structure MultiLogLine where
  hours : ℚ
  date : String
  username : String
  iid : String
  title : String
deriving DecidableEq

/-- Filter of the multi-user loop (line 111 of the source):
`localSpentAt >= date`, with no username condition. -/
def multiIncluded (env : TimeEnv) (date : String) (tl : Timelog) : Bool :=
  goStrGe (localSpentAt env tl.spentAt) date

/-- The log line of line 117 of the source for one entry. -/
def multiLineOf (env : TimeEnv) (issue : Issue) (tl : Timelog) : MultiLogLine :=
  ⟨hoursOf tl.timeSpent, localSpentAt env tl.spentAt, tl.username, issue.iid, issue.title⟩

/-- State of `getAllUsersSpentTime`: the tree the pointer argument refers
to, the two per-user bucket maps and the log lines emitted so far. -/
structure MultiAggState where
  data : TimelogData
  totalDevTimePerUser : List (String × ℚ)
  totalNonDevTimePerUser : List (String × ℚ)
  lines : List MultiLogLine
deriving DecidableEq

/-- Body of the inner loop of `getAllUsersSpentTime` (lines 104-119): when
the filter passes, classify by `strings.Contains(issue.Title,
trackingIssue)` into the non-dev (tracking) or dev bucket of the entry
user, then emit the per-entry log line. -/
def multiStep (env : TimeEnv) (date trackingIssue : String) (issue : Issue)
    (st : MultiAggState) (tl : Timelog) : MultiAggState :=
  if multiIncluded env date tl then
    let st' :=
      if goContains issue.title trackingIssue then
        { st with totalNonDevTimePerUser :=
            mapAdd st.totalNonDevTimePerUser tl.username (hoursOf tl.timeSpent) }
      else
        { st with totalDevTimePerUser :=
            mapAdd st.totalDevTimePerUser tl.username (hoursOf tl.timeSpent) }
    { st' with lines := st'.lines ++ [multiLineOf env issue tl] }
  else st

/-- The nested loops of `getAllUsersSpentTime` (lines 95-120), with
`date := time.Now().AddDate(0, 0, -daysNum).Format("2006-01-02")`. -/
def getAllUsersSpentTimeRun (env : TimeEnv) (daysNum : Int) (trackingIssue : String)
    (st : MultiAggState) : MultiAggState :=
  let date := env.addDaysFmt (-daysNum)
  st.data.issues.foldl
    (fun s issue => issue.timelogs.foldl (multiStep env date trackingIssue issue) s) st

/-- Observable result of `getAllUsersSpentTime`: the two bucket maps and
the per-entry log lines, starting from the empty maps (lines 97-98). -/
def getAllUsersSpentTime (env : TimeEnv) (daysNum : Int) (trackingIssue : String)
    (d : TimelogData) : List (String × ℚ) × List (String × ℚ) × List MultiLogLine :=
  let st := getAllUsersSpentTimeRun env daysNum trackingIssue ⟨d, [], [], []⟩
  (st.totalDevTimePerUser, st.totalNonDevTimePerUser, st.lines)

/-- Flattened list of (issue, timelog) pairs visited by the nested loops
over a list of issues, in visit order. -/
def pairsOfIssues (issues : List Issue) : List (Issue × Timelog) :=
  issues.flatMap (fun issue => issue.timelogs.map (fun tl => (issue, tl)))

/-- Flattened list of (issue, timelog) pairs visited by the nested loops,
in visit order. -/
def pairs (d : TimelogData) : List (Issue × Timelog) :=
  pairsOfIssues d.issues

/-- Embedding of Go `strconv.Atoi` (= `ParseInt(s, 10, 0)` on a 64-bit
platform): digit-string value, `none` on a non-digit. -/
def digitsVal : List Char → Option Nat
  | [] => none
  | [c] => if c.isDigit then some (c.toNat - 48) else none
  | c :: rest =>
      if c.isDigit then
        (digitsVal rest).map (fun n => (c.toNat - 48) * 10 ^ rest.length + n)
      else none

/-- Embedding of Go `strconv.Atoi`: optional single leading sign, one or
more ASCII digits, nothing else; the result must fit in a signed 64-bit
int, else an error (`none`).  Used on the `DAYS_NUM` variable at lines
171-174 of the source; note there is no sign restriction beyond this. -/
def goAtoi (s : String) : Option Int :=
  match s.data with
  | [] => none
  | '+' :: rest => (digitsVal rest).bind (fun n =>
      if n < 2 ^ 63 then some (n : Int) else none)
  | '-' :: rest => (digitsVal rest).bind (fun n =>
      if n ≤ 2 ^ 63 then some (-(n : Int)) else none)
  | l => (digitsVal l).bind (fun n =>
      if n < 2 ^ 63 then some (n : Int) else none)

/-- Which aggregator `main` calls, with the argument it passes (lines
204-208 of the source). -/
inductive AggCall where
  | singleUser (username : String)
  | allUsers (trackingIssue : String)
deriving DecidableEq

/-- Mode selection of `main` (lines 176-177 and 204-208 of the source):
if the `ALL_USERS` environment variable is empty, run `getUserSpentTime`
with the authenticated username, else run `getAllUsersSpentTime` with the
`GITLAB_REPORTING_ISSUE` value. -/
def dispatch (getAllUsers currentUsername reportingIssue : String) : AggCall :=
  if getAllUsers == "" then .singleUser currentUsername
  else .allUsers reportingIssue

/-- Hours of the entries of a pair list that pass the single-user filter
(specification-side closed form of the running total). -/
def userTotalOf (env : TimeEnv) (date username : String)
    (l : List (Issue × Timelog)) : ℚ :=
  ((l.filter (fun p => userIncluded env date username p.2)).map
    (fun p => hoursOf p.2.timeSpent)).sum

/-- Log lines of the entries of a pair list that pass the single-user
filter (specification-side closed form of the emitted lines). -/
def userLinesOf (env : TimeEnv) (date username : String)
    (l : List (Issue × Timelog)) : List LogLine :=
  (l.filter (fun p => userIncluded env date username p.2)).map
    (fun p => userLineOf env p.1 p.2)

/-- Classification of one pair into the dev bucket of user `u`: included,
title does not contain the tracking substring, entry user is `u`. -/
def devPick (env : TimeEnv) (date trackingIssue u : String)
    (p : Issue × Timelog) : Bool :=
  multiIncluded env date p.2 && !(goContains p.1.title trackingIssue) &&
    (p.2.username == u)

/-- Classification of one pair into the tracking (non-dev) bucket of user
`u`: included, title contains the tracking substring, entry user is `u`. -/
def nonDevPick (env : TimeEnv) (date trackingIssue u : String)
    (p : Issue × Timelog) : Bool :=
  multiIncluded env date p.2 && goContains p.1.title trackingIssue &&
    (p.2.username == u)

/-- Hours of the entries of a pair list classified into the dev bucket of
user `u` (specification-side closed form of the dev map value). -/
def devTotalOf (env : TimeEnv) (date trackingIssue u : String)
    (l : List (Issue × Timelog)) : ℚ :=
  ((l.filter (devPick env date trackingIssue u)).map
    (fun p => hoursOf p.2.timeSpent)).sum

/-- Hours of the entries of a pair list classified into the tracking
(non-dev) bucket of user `u` (specification-side closed form of the
non-dev map value). -/
def nonDevTotalOf (env : TimeEnv) (date trackingIssue u : String)
    (l : List (Issue × Timelog)) : ℚ :=
  ((l.filter (nonDevPick env date trackingIssue u)).map
    (fun p => hoursOf p.2.timeSpent)).sum

/-- Log lines of the entries of a pair list that pass the multi-user
filter (specification-side closed form of the emitted lines). -/
def multiLinesOf (env : TimeEnv) (date : String)
    (l : List (Issue × Timelog)) : List MultiLogLine :=
  (l.filter (fun p => multiIncluded env date p.2)).map
    (fun p => multiLineOf env p.1 p.2)

/-- Concrete time environment for the concrete instances: a run on
2025-10-11 in the local zone UTC+02:00.  The parse table lists the
RFC3339 strings occurring in the concrete data with their local calendar
dates; anything else fails to parse.  The zero time formats as
0001-01-01, and `AddDate(0, 0, k)` shifts the calendar date by `k` days
(spelled out at the offsets the instances use). -/
def demoEnv : TimeEnv where
  parseLocalFmt s :=
    if s = "2025-10-11T10:00:00+02:00" then some "2025-10-11"
    else if s = "2025-10-11T08:30:00+02:00" then some "2025-10-11"
    else if s = "2025-10-10T22:00:00+02:00" then some "2025-10-10"
    else none
  zeroTimeFmt := "0001-01-01"
  addDaysFmt k :=
    if k = 0 then "2025-10-11"
    else if k = -1 then "2025-10-10"
    else if k = -2 then "2025-10-09"
    else if k = 1 then "2025-10-12"
    else if k = 2 then "2025-10-13"
    else "2025-10-11"

/-- Timelog of 3600 seconds spent today by alice. -/
def tlToday3600 : Timelog := ⟨3600, "2025-10-11T10:00:00+02:00", "alice"⟩

/-- Timelog of 1800 seconds spent today by alice. -/
def tlToday1800 : Timelog := ⟨1800, "2025-10-11T08:30:00+02:00", "alice"⟩

/-- Timelog of 3600 seconds spent yesterday by alice. -/
def tlYesterday : Timelog := ⟨3600, "2025-10-10T22:00:00+02:00", "alice"⟩

/-- Timelog whose spentAt string does not parse as RFC3339. -/
def tlBad : Timelog := ⟨3600, "not-a-date", "alice"⟩

/-- Tree with a single issue holding one timelog of today. -/
def dataOneToday : TimelogData := ⟨[⟨"1", "Feature work", [tlToday3600]⟩]⟩

/-- Tree with a single issue holding the two timelogs of the worked
example (3600 s and 1800 s, both today, both by alice). -/
def dataExample : TimelogData := ⟨[⟨"1", "Feature work", [tlToday3600, tlToday1800]⟩]⟩

/-- The tree of the worked example with the two timelogs in the other
order. -/
def dataExampleRev : TimelogData := ⟨[⟨"1", "Feature work", [tlToday1800, tlToday3600]⟩]⟩

/-- Tree with a single tracking issue (title containing TRACK-1) holding
one timelog of today. -/
def dataTracking : TimelogData := ⟨[⟨"2", "Sprint Planning / TRACK-1", [tlToday3600]⟩]⟩

/-- Tree with a single issue holding one timelog of yesterday. -/
def dataOneYesterday : TimelogData := ⟨[⟨"1", "Feature work", [tlYesterday]⟩]⟩

/-- Observable projection of a visited pair: issue iid, issue title and
the timelog.  The aggregation results depend on a pair only through this
projection. -/
def obsOf (p : Issue × Timelog) : String × String × Timelog :=
  (p.1.iid, p.1.title, p.2)

/-- Observable pair list of a tree. -/
def obsPairs (d : TimelogData) : List (String × String × Timelog) :=
  (pairs d).map obsOf

/-- Single-user total over observable pairs. -/
def userTotalObs (env : TimeEnv) (date username : String)
    (l : List (String × String × Timelog)) : ℚ :=
  ((l.filter (fun q => userIncluded env date username q.2.2)).map
    (fun q => hoursOf q.2.2.timeSpent)).sum

/-- Dev-bucket classification over an observable pair. -/
def devPickObs (env : TimeEnv) (date trackingIssue u : String)
    (q : String × String × Timelog) : Bool :=
  multiIncluded env date q.2.2 && !(goContains q.2.1 trackingIssue) &&
    (q.2.2.username == u)

/-- Tracking-bucket classification over an observable pair. -/
def nonDevPickObs (env : TimeEnv) (date trackingIssue u : String)
    (q : String × String × Timelog) : Bool :=
  multiIncluded env date q.2.2 && goContains q.2.1 trackingIssue &&
    (q.2.2.username == u)

/-- Per-user dev total over observable pairs. -/
def devTotalObs (env : TimeEnv) (date trackingIssue u : String)
    (l : List (String × String × Timelog)) : ℚ :=
  ((l.filter (devPickObs env date trackingIssue u)).map
    (fun q => hoursOf q.2.2.timeSpent)).sum

/-- Per-user tracking total over observable pairs. -/
def nonDevTotalObs (env : TimeEnv) (date trackingIssue u : String)
    (l : List (String × String × Timelog)) : ℚ :=
  ((l.filter (nonDevPickObs env date trackingIssue u)).map
    (fun q => hoursOf q.2.2.timeSpent)).sum

/-- Fuel-bounded floor base-2 logarithm; agrees with the floor of log2 on
every positive input below 2^512, which covers every magnitude the
binary32 model meets. -/
def log2Fuel : Nat → Nat → Nat
  | 0, _ => 0
  | fuel + 1, n => if 2 ≤ n then log2Fuel fuel (n / 2) + 1 else 0

/-- Nearest integer to the ratio a/b (b positive) with ties to even: the
IEEE-754 default rounding applied to a scaled significand. -/
def roundTiesEven (a b : Nat) : Nat :=
  if 2 * (a % b) < b then a / b
  else if b < 2 * (a % b) then a / b + 1
  else if (a / b) % 2 = 0 then a / b else a / b + 1

/-- Binary32 (float32) rounding of the rational a/b, returned in fixed
point as an integer multiple of 2^(-149) — every finite binary32 value is
one.  The exponent comes from the floor log2, the significand grid is
2^(e-23) clamped below to the subnormal grid 2^(-149), and the value is
rounded to nearest with ties to even.  Finite range only (no overflow to
infinity): the values of this development stay far below the binary32
maximum. -/
def roundF32Q (a : Int) (b : Nat) : Int :=
  if a = 0 then 0 else
  let n := a.natAbs
  let L : Int := (log2Fuel 512 (n * 2 ^ 200 / b) : Int) - 200
  let s : Int := max (L - 23) (-149)
  let m : Nat :=
    if s ≤ 0 then roundTiesEven (n * 2 ^ (-s).toNat) b
    else roundTiesEven n (b * 2 ^ s.toNat)
  if a < 0 then -((m : Int) * 2 ^ (s + 149).toNat) else (m : Int) * 2 ^ (s + 149).toNat

/-- Go conversion `float32(t)` of an integer second count (rounded to
nearest, ties to even), in fixed point. -/
def f32OfInt (t : Int) : Int := roundF32Q t 1

/-- Binary32 division of a fixed-point value by a positive integer
constant: the exact quotient, rounded. -/
def f32DivNat (x : Int) (d : Nat) : Int := roundF32Q x (2 ^ 149 * d)

/-- Binary32 addition of two fixed-point values: the exact sum, rounded. -/
def f32Add (x y : Int) : Int := roundF32Q (x + y) (2 ^ 149)

/-- Binary32 contribution of one timelog, `float32(timelog.TimeSpent) /
3600` of line 87 of the source: the int-to-float32 conversion rounds,
then the division by the exactly representable constant 3600 rounds. -/
def hoursOfF32 (t : Int) : Int := f32DivNat (f32OfInt t) 3600

/-- Body of the inner loop of `getUserSpentTime` restricted to the
`totalSpentTime` accumulator with its actual float32 arithmetic (line 87
of the source): the same filter as `userStep`, accumulation by binary32
addition. -/
def userStepF32 (env : TimeEnv) (date username : String) (st : Int) (tl : Timelog) : Int :=
  if userIncluded env date username tl then f32Add st (hoursOfF32 tl.timeSpent) else st

/-- The nested loops of `getUserSpentTime` over the `totalSpentTime`
accumulator in binary32, from the zero accumulator (fixed-point result):
the float32-faithful refinement of the first component of
`getUserSpentTime`. -/
def getUserSpentTimeF32 (env : TimeEnv) (daysNum : Int) (username : String)
    (d : TimelogData) : Int :=
  let date := env.addDaysFmt (-daysNum)
  d.issues.foldl
    (fun s issue => issue.timelogs.foldl (userStepF32 env date username) s) 0

/-- Timelog of one second spent today by alice; the hours value 1/3600 is
not representable in binary32. -/
def tlOneSecond : Timelog := ⟨1, "2025-10-11T10:00:00+02:00", "alice"⟩

/-- Timelog of 60397977600 s = 2^24 hours spent today by alice; at 2^24
the spacing of representable binary32 values is 2. -/
def tlHuge : Timelog := ⟨60397977600, "2025-10-11T10:00:00+02:00", "alice"⟩

/-- Timelog of 2700 s = 0.75 h spent today by alice. -/
def tl2700 : Timelog := ⟨2700, "2025-10-11T10:00:00+02:00", "alice"⟩

/-- Tree with a single issue holding the one-second timelog. -/
def dataOneSecond : TimelogData := ⟨[⟨"1", "Feature work", [tlOneSecond]⟩]⟩

/-- Tree with the huge timelog summed first, then the two 0.75 h
timelogs. -/
def dataF32A : TimelogData := ⟨[⟨"1", "Feature work", [tlHuge, tl2700, tl2700]⟩]⟩

/-- The same multiset of timelogs with the huge one summed last. -/
def dataF32B : TimelogData := ⟨[⟨"1", "Feature work", [tl2700, tl2700, tlHuge]⟩]⟩


/-- Unfolding of `userTotalOf` on a cons cell. -/
theorem userTotalOf_cons (env : TimeEnv) (date username : String)
    (p : Issue × Timelog) (l : List (Issue × Timelog)) :
    userTotalOf env date username (p :: l) =
      if userIncluded env date username p.2
      then hoursOf p.2.timeSpent + userTotalOf env date username l
      else userTotalOf env date username l := by
  simp only [userTotalOf, List.filter_cons]
  split <;> simp

/-- Unfolding of `userLinesOf` on a cons cell. -/
theorem userLinesOf_cons (env : TimeEnv) (date username : String)
    (p : Issue × Timelog) (l : List (Issue × Timelog)) :
    userLinesOf env date username (p :: l) =
      if userIncluded env date username p.2
      then userLineOf env p.1 p.2 :: userLinesOf env date username l
      else userLinesOf env date username l := by
  simp only [userLinesOf, List.filter_cons]
  split <;> simp

/-- Additivity of `userTotalOf` over list append. -/
theorem userTotalOf_append (env : TimeEnv) (date username : String)
    (l₁ l₂ : List (Issue × Timelog)) :
    userTotalOf env date username (l₁ ++ l₂) =
      userTotalOf env date username l₁ + userTotalOf env date username l₂ := by
  simp [userTotalOf, List.filter_append]

/-- Distribution of `userLinesOf` over list append. -/
theorem userLinesOf_append (env : TimeEnv) (date username : String)
    (l₁ l₂ : List (Issue × Timelog)) :
    userLinesOf env date username (l₁ ++ l₂) =
      userLinesOf env date username l₁ ++ userLinesOf env date username l₂ := by
  simp [userLinesOf, List.filter_append]

/-- Closed form of the inner loop of `getUserSpentTime` over the timelogs
of one issue. -/
theorem userFoldTimelogs (env : TimeEnv) (date username : String) (issue : Issue)
    (tls : List Timelog) (st : UserAggState) :
    tls.foldl (userStep env date username issue) st =
      ⟨st.data,
       st.totalSpentTime + userTotalOf env date username (tls.map (fun tl => (issue, tl))),
       st.lines ++ userLinesOf env date username (tls.map (fun tl => (issue, tl)))⟩ := by
  induction tls generalizing st with
  | nil => simp [userTotalOf, userLinesOf]
  | cons tl tls ih =>
      rw [List.foldl_cons, ih]
      by_cases h : userIncluded env date username tl
      · simp [userStep, h, userTotalOf_cons, userLinesOf_cons, add_assoc]
      · simp [userStep, h, userTotalOf_cons, userLinesOf_cons]

/-- Closed form of the nested loops of `getUserSpentTime` over a list of
issues. -/
theorem userFoldIssues (env : TimeEnv) (date username : String)
    (issues : List Issue) (st : UserAggState) :
    issues.foldl
        (fun s issue => issue.timelogs.foldl (userStep env date username issue) s) st =
      ⟨st.data,
       st.totalSpentTime + userTotalOf env date username (pairsOfIssues issues),
       st.lines ++ userLinesOf env date username (pairsOfIssues issues)⟩ := by
  induction issues generalizing st with
  | nil => simp [pairsOfIssues, userTotalOf, userLinesOf]
  | cons issue issues ih =>
      rw [List.foldl_cons, userFoldTimelogs, ih]
      simp [pairsOfIssues, userTotalOf_append, userLinesOf_append, add_assoc]

/-- Closed form of `getUserSpentTime`: the total is the sum of
`timeSpent/3600` over the pairs passing the single-user filter, and the
emitted lines are exactly the lines of those pairs, in visit order. -/
theorem getUserSpentTime_eq (env : TimeEnv) (daysNum : Int) (username : String)
    (d : TimelogData) :
    getUserSpentTime env daysNum username d =
      (userTotalOf env (env.addDaysFmt (-daysNum)) username (pairs d),
       userLinesOf env (env.addDaysFmt (-daysNum)) username (pairs d)) := by
  simp [getUserSpentTime, getUserSpentTimeRun, userFoldIssues, pairs]

/-- Reading the embedded Go map after an update `m[w] += v`. -/
theorem mapGet_mapAdd (m : List (String × ℚ)) (w u : String) (v : ℚ) :
    mapGet (mapAdd m w v) u = if w == u then mapGet m u + v else mapGet m u := by
  induction m with
  | nil =>
      by_cases h : w = u <;> simp [mapAdd, mapGet, h]
  | cons p rest ih =>
      obtain ⟨k, x⟩ := p
      by_cases hkw : k = w
      · subst hkw
        by_cases hku : k = u
        · subst hku
          simp [mapAdd, mapGet]
        · simp [mapAdd, mapGet, hku]
      · by_cases hku : k = u
        · subst hku
          simp [mapAdd, mapGet, hkw, Ne.symm hkw]
        · simp [mapAdd, mapGet, hkw, hku, ih]

/-- Emptiness of the pattern: the Go `strings.Contains(s, "")` is true for
every string `s`. -/
theorem goContains_empty (s : String) : goContains s "" = true := by
  have he : ("" : String).data = [] := rfl
  cases h : s.data with
  | nil => simp [goContains, hasSubstrL, he, h, isPrefixOfL]
  | cons c rest => simp [goContains, hasSubstrL, he, h, isPrefixOfL]

/-- The multi-user loop body never changes the tree component. -/
theorem multiStep_data (env : TimeEnv) (date trackingIssue : String) (issue : Issue)
    (st : MultiAggState) (tl : Timelog) :
    (multiStep env date trackingIssue issue st tl).data = st.data := by
  by_cases h : multiIncluded env date tl <;>
    simp [multiStep, h] <;>
    by_cases h2 : goContains issue.title trackingIssue <;> simp [h2]

/-- Lines emitted by one pass of the multi-user loop body. -/
theorem multiStep_lines (env : TimeEnv) (date trackingIssue : String) (issue : Issue)
    (st : MultiAggState) (tl : Timelog) :
    (multiStep env date trackingIssue issue st tl).lines =
      st.lines ++
        (if multiIncluded env date tl then [multiLineOf env issue tl] else []) := by
  by_cases h : multiIncluded env date tl <;>
    simp [multiStep, h] <;>
    by_cases h2 : goContains issue.title trackingIssue <;> simp [h2]

/-- Dev-bucket reading after one pass of the multi-user loop body. -/
theorem multiStep_dev (env : TimeEnv) (date trackingIssue u : String) (issue : Issue)
    (st : MultiAggState) (tl : Timelog) :
    mapGet (multiStep env date trackingIssue issue st tl).totalDevTimePerUser u =
      mapGet st.totalDevTimePerUser u +
        (if devPick env date trackingIssue u (issue, tl)
         then hoursOf tl.timeSpent else 0) := by
  by_cases h : multiIncluded env date tl
  · by_cases h2 : goContains issue.title trackingIssue
    · simp [multiStep, h, h2, devPick]
    · by_cases h3 : tl.username = u <;>
        simp [multiStep, h, h2, h3, devPick, mapGet_mapAdd]
  · simp [multiStep, h, devPick]

/-- Tracking-bucket reading after one pass of the multi-user loop body. -/
theorem multiStep_nonDev (env : TimeEnv) (date trackingIssue u : String) (issue : Issue)
    (st : MultiAggState) (tl : Timelog) :
    mapGet (multiStep env date trackingIssue issue st tl).totalNonDevTimePerUser u =
      mapGet st.totalNonDevTimePerUser u +
        (if nonDevPick env date trackingIssue u (issue, tl)
         then hoursOf tl.timeSpent else 0) := by
  by_cases h : multiIncluded env date tl
  · by_cases h2 : goContains issue.title trackingIssue
    · by_cases h3 : tl.username = u <;>
        simp [multiStep, h, h2, h3, nonDevPick, mapGet_mapAdd]
    · simp [multiStep, h, h2, nonDevPick]
  · simp [multiStep, h, nonDevPick]

/-- When the issue title contains the tracking substring, the dev bucket of
the state is untouched (not merely unchanged in value). -/
theorem multiStep_dev_untouched (env : TimeEnv) (date trackingIssue : String)
    (issue : Issue) (st : MultiAggState) (tl : Timelog)
    (h2 : goContains issue.title trackingIssue = true) :
    (multiStep env date trackingIssue issue st tl).totalDevTimePerUser =
      st.totalDevTimePerUser := by
  by_cases h : multiIncluded env date tl <;> simp [multiStep, h, h2]

/-- Unfolding of `devTotalOf` on a cons cell. -/
theorem devTotalOf_cons (env : TimeEnv) (date trackingIssue u : String)
    (p : Issue × Timelog) (l : List (Issue × Timelog)) :
    devTotalOf env date trackingIssue u (p :: l) =
      (if devPick env date trackingIssue u p then hoursOf p.2.timeSpent else 0) +
        devTotalOf env date trackingIssue u l := by
  simp only [devTotalOf, List.filter_cons]
  split <;> simp

/-- Unfolding of `nonDevTotalOf` on a cons cell. -/
theorem nonDevTotalOf_cons (env : TimeEnv) (date trackingIssue u : String)
    (p : Issue × Timelog) (l : List (Issue × Timelog)) :
    nonDevTotalOf env date trackingIssue u (p :: l) =
      (if nonDevPick env date trackingIssue u p then hoursOf p.2.timeSpent else 0) +
        nonDevTotalOf env date trackingIssue u l := by
  simp only [nonDevTotalOf, List.filter_cons]
  split <;> simp

/-- Unfolding of `multiLinesOf` on a cons cell. -/
theorem multiLinesOf_cons (env : TimeEnv) (date : String)
    (p : Issue × Timelog) (l : List (Issue × Timelog)) :
    multiLinesOf env date (p :: l) =
      (if multiIncluded env date p.2 then [multiLineOf env p.1 p.2] else []) ++
        multiLinesOf env date l := by
  simp only [multiLinesOf, List.filter_cons]
  split <;> simp

/-- Additivity of `devTotalOf` over list append. -/
theorem devTotalOf_append (env : TimeEnv) (date trackingIssue u : String)
    (l₁ l₂ : List (Issue × Timelog)) :
    devTotalOf env date trackingIssue u (l₁ ++ l₂) =
      devTotalOf env date trackingIssue u l₁ + devTotalOf env date trackingIssue u l₂ := by
  simp [devTotalOf, List.filter_append]

/-- Additivity of `nonDevTotalOf` over list append. -/
theorem nonDevTotalOf_append (env : TimeEnv) (date trackingIssue u : String)
    (l₁ l₂ : List (Issue × Timelog)) :
    nonDevTotalOf env date trackingIssue u (l₁ ++ l₂) =
      nonDevTotalOf env date trackingIssue u l₁ +
        nonDevTotalOf env date trackingIssue u l₂ := by
  simp [nonDevTotalOf, List.filter_append]

/-- Distribution of `multiLinesOf` over list append. -/
theorem multiLinesOf_append (env : TimeEnv) (date : String)
    (l₁ l₂ : List (Issue × Timelog)) :
    multiLinesOf env date (l₁ ++ l₂) =
      multiLinesOf env date l₁ ++ multiLinesOf env date l₂ := by
  simp [multiLinesOf, List.filter_append]

/-- Closed form of the inner loop of `getAllUsersSpentTime` over the
timelogs of one issue: the tree is unchanged, the lines are appended in
visit order, and each bucket map reads as its old value plus the
classified hours. -/
theorem multiFoldTimelogs (env : TimeEnv) (date trackingIssue : String) (issue : Issue)
    (tls : List Timelog) (st : MultiAggState) :
    (tls.foldl (multiStep env date trackingIssue issue) st).data = st.data ∧
    (tls.foldl (multiStep env date trackingIssue issue) st).lines =
      st.lines ++ multiLinesOf env date (tls.map (fun tl => (issue, tl))) ∧
    (∀ u, mapGet (tls.foldl (multiStep env date trackingIssue issue) st).totalDevTimePerUser u =
      mapGet st.totalDevTimePerUser u +
        devTotalOf env date trackingIssue u (tls.map (fun tl => (issue, tl)))) ∧
    (∀ u, mapGet (tls.foldl (multiStep env date trackingIssue issue) st).totalNonDevTimePerUser u =
      mapGet st.totalNonDevTimePerUser u +
        nonDevTotalOf env date trackingIssue u (tls.map (fun tl => (issue, tl)))) := by
  induction tls generalizing st with
  | nil => simp [multiLinesOf, devTotalOf, nonDevTotalOf]
  | cons tl tls ih =>
      rw [List.foldl_cons]
      obtain ⟨ihd, ihl, ihdev, ihnon⟩ := ih (multiStep env date trackingIssue issue st tl)
      refine ⟨?_, ?_, ?_, ?_⟩
      · rw [ihd, multiStep_data]
      · rw [ihl, multiStep_lines]
        simp [multiLinesOf_cons, List.append_assoc]
      · intro u
        rw [ihdev u, multiStep_dev]
        simp [devTotalOf_cons, add_assoc]
      · intro u
        rw [ihnon u, multiStep_nonDev]
        simp [nonDevTotalOf_cons, add_assoc]

/-- Closed form of the nested loops of `getAllUsersSpentTime` over a list
of issues. -/
theorem multiFoldIssues (env : TimeEnv) (date trackingIssue : String)
    (issues : List Issue) (st : MultiAggState) :
    (issues.foldl
        (fun s issue => issue.timelogs.foldl (multiStep env date trackingIssue issue) s) st).data =
      st.data ∧
    (issues.foldl
        (fun s issue => issue.timelogs.foldl (multiStep env date trackingIssue issue) s) st).lines =
      st.lines ++ multiLinesOf env date (pairsOfIssues issues) ∧
    (∀ u, mapGet (issues.foldl
        (fun s issue => issue.timelogs.foldl (multiStep env date trackingIssue issue) s) st).totalDevTimePerUser u =
      mapGet st.totalDevTimePerUser u +
        devTotalOf env date trackingIssue u (pairsOfIssues issues)) ∧
    (∀ u, mapGet (issues.foldl
        (fun s issue => issue.timelogs.foldl (multiStep env date trackingIssue issue) s) st).totalNonDevTimePerUser u =
      mapGet st.totalNonDevTimePerUser u +
        nonDevTotalOf env date trackingIssue u (pairsOfIssues issues)) := by
  induction issues generalizing st with
  | nil => simp [pairsOfIssues, multiLinesOf, devTotalOf, nonDevTotalOf]
  | cons issue issues ih =>
      rw [List.foldl_cons]
      obtain ⟨ihd, ihl, ihdev, ihnon⟩ :=
        ih (issue.timelogs.foldl (multiStep env date trackingIssue issue) st)
      obtain ⟨fd, fl, fdev, fnon⟩ :=
        multiFoldTimelogs env date trackingIssue issue issue.timelogs st
      refine ⟨?_, ?_, ?_, ?_⟩
      · rw [ihd, fd]
      · rw [ihl, fl]
        simp [pairsOfIssues, multiLinesOf_append, List.append_assoc]
      · intro u
        rw [ihdev u, fdev u]
        simp [pairsOfIssues, devTotalOf_append, add_assoc]
      · intro u
        rw [ihnon u, fnon u]
        simp [pairsOfIssues, nonDevTotalOf_append, add_assoc]

/-- Closed form of the dev-bucket map of `getAllUsersSpentTime`. -/
theorem getAllUsersSpentTime_dev (env : TimeEnv) (daysNum : Int)
    (trackingIssue : String) (d : TimelogData) (u : String) :
    mapGet (getAllUsersSpentTime env daysNum trackingIssue d).1 u =
      devTotalOf env (env.addDaysFmt (-daysNum)) trackingIssue u (pairs d) := by
  have h := (multiFoldIssues env (env.addDaysFmt (-daysNum)) trackingIssue
    d.issues ⟨d, [], [], []⟩).2.2.1 u
  simpa [getAllUsersSpentTime, getAllUsersSpentTimeRun, pairs, mapGet] using h

/-- Closed form of the tracking-bucket map of `getAllUsersSpentTime`. -/
theorem getAllUsersSpentTime_nonDev (env : TimeEnv) (daysNum : Int)
    (trackingIssue : String) (d : TimelogData) (u : String) :
    mapGet (getAllUsersSpentTime env daysNum trackingIssue d).2.1 u =
      nonDevTotalOf env (env.addDaysFmt (-daysNum)) trackingIssue u (pairs d) := by
  have h := (multiFoldIssues env (env.addDaysFmt (-daysNum)) trackingIssue
    d.issues ⟨d, [], [], []⟩).2.2.2 u
  simpa [getAllUsersSpentTime, getAllUsersSpentTimeRun, pairs, mapGet] using h

/-- Closed form of the lines emitted by `getAllUsersSpentTime`. -/
theorem getAllUsersSpentTime_lines (env : TimeEnv) (daysNum : Int)
    (trackingIssue : String) (d : TimelogData) :
    (getAllUsersSpentTime env daysNum trackingIssue d).2.2 =
      multiLinesOf env (env.addDaysFmt (-daysNum)) (pairs d) := by
  have h := (multiFoldIssues env (env.addDaysFmt (-daysNum)) trackingIssue
    d.issues ⟨d, [], [], []⟩).2.1
  simpa [getAllUsersSpentTime, getAllUsersSpentTimeRun, pairs] using h

/-- With the tracking substring of the run set to the empty string, the
dev bucket is literally never touched by the inner loop. -/
theorem multiFoldTimelogs_dev_empty (env : TimeEnv) (date : String) (issue : Issue)
    (tls : List Timelog) (st : MultiAggState) :
    (tls.foldl (multiStep env date "" issue) st).totalDevTimePerUser =
      st.totalDevTimePerUser := by
  induction tls generalizing st with
  | nil => rfl
  | cons tl tls ih =>
      rw [List.foldl_cons, ih,
        multiStep_dev_untouched env date "" issue st tl (goContains_empty issue.title)]

/-- With the tracking substring of the run set to the empty string, the
dev bucket is literally never touched by the nested loops. -/
theorem multiFoldIssues_dev_empty (env : TimeEnv) (date : String)
    (issues : List Issue) (st : MultiAggState) :
    (issues.foldl
        (fun s issue => issue.timelogs.foldl (multiStep env date "" issue) s) st).totalDevTimePerUser =
      st.totalDevTimePerUser := by
  induction issues generalizing st with
  | nil => rfl
  | cons issue issues ih =>
      rw [List.foldl_cons, ih, multiFoldTimelogs_dev_empty]

/-- Transitivity across the embedded byte-wise string order: if `t` is not
below `l` and `t` is below `c`, then `l` is below `c`. -/
theorem goStrLtL_le_lt_trans (t l c : List Char) (h1 : goStrLtL t l = false)
    (h2 : goStrLtL t c = true) : goStrLtL l c = true := by
  induction t generalizing l c with
  | nil =>
      cases l with
      | nil => exact h2
      | cons b bs => simp [goStrLtL] at h1
  | cons a as ih =>
      cases l with
      | nil =>
          cases c with
          | nil => simp [goStrLtL] at h2
          | cons e es => simp [goStrLtL]
      | cons b bs =>
          cases c with
          | nil => simp [goStrLtL] at h2
          | cons e es =>
              by_cases hab : a < b
              · simp [goStrLtL, goCharLt, hab] at h1
              · by_cases hba : b < a
                · by_cases hae : a < e
                  · have hbe : b < e := lt_trans hba hae
                    simp [goStrLtL, goCharLt, hbe]
                  · by_cases hea : e < a
                    · simp [goStrLtL, goCharLt, hab, hae, hea] at h2
                    · have haeq : a = e := le_antisymm (not_lt.mp hea) (not_lt.mp hae)
                      subst haeq
                      simp [goStrLtL, goCharLt, hba]
                · have habq : a = b := le_antisymm (not_lt.mp hba) (not_lt.mp hab)
                  subst habq
                  have h1' : goStrLtL as bs = false := by
                    simpa [goStrLtL, goCharLt, lt_irrefl] using h1
                  by_cases hae : a < e
                  · simp [goStrLtL, goCharLt, hae]
                  · by_cases hea : e < a
                    · simp [goStrLtL, goCharLt, hae, hea] at h2
                    · have haeq : a = e := le_antisymm (not_lt.mp hea) (not_lt.mp hae)
                      subst haeq
                      have h2' : goStrLtL as es = true := by
                        simpa [goStrLtL, goCharLt, lt_irrefl] using h2
                      simpa [goStrLtL, goCharLt, lt_irrefl] using ih bs es h1' h2'

/-- Unfolding of `pairsOfIssues` on a cons cell. -/
theorem pairsOfIssues_cons (issue : Issue) (issues : List Issue) :
    pairsOfIssues (issue :: issues) =
      issue.timelogs.map (fun tl => (issue, tl)) ++ pairsOfIssues issues := by
  simp [pairsOfIssues]

/-- A pass of the single-user loop body over an entry that fails the
filter leaves the state unchanged. -/
theorem userStep_skip (env : TimeEnv) (date username : String) (issue : Issue)
    (st : UserAggState) (tl : Timelog)
    (h : userIncluded env date username tl = false) :
    userStep env date username issue st tl = st := by
  simp [userStep, h]

/-- A pass of the multi-user loop body over an entry that fails the filter
leaves the state unchanged. -/
theorem multiStep_skip (env : TimeEnv) (date trackingIssue : String) (issue : Issue)
    (st : MultiAggState) (tl : Timelog)
    (h : multiIncluded env date tl = false) :
    multiStep env date trackingIssue issue st tl = st := by
  simp [multiStep, h]

/-- If every visited entry fails the single-user filter, the nested loops
return the initial state. -/
theorem userFoldIssues_id (env : TimeEnv) (date username : String)
    (issues : List Issue) (st : UserAggState)
    (h : ∀ p ∈ pairsOfIssues issues, userIncluded env date username p.2 = false) :
    issues.foldl
        (fun s issue => issue.timelogs.foldl (userStep env date username issue) s) st = st := by
  induction issues generalizing st with
  | nil => rfl
  | cons issue issues ih =>
      rw [List.foldl_cons]
      have hinner : ∀ (tls : List Timelog), (∀ tl ∈ tls, (issue, tl) ∈ pairsOfIssues (issue :: issues)) →
          tls.foldl (userStep env date username issue) st = st := by
        intro tls
        induction tls generalizing st with
        | nil => intro _; rfl
        | cons tl tls ih2 =>
            intro hmem
            rw [List.foldl_cons,
              userStep_skip env date username issue st tl (h _ (hmem tl (by simp)))]
            exact ih2 st (fun x hx => hmem x (by simp [hx]))
      rw [hinner issue.timelogs (fun tl htl => by
        simp only [pairsOfIssues_cons, List.mem_append, List.mem_map]
        exact Or.inl ⟨tl, htl, rfl⟩)]
      exact ih st (fun p hp => h p (by simp [pairsOfIssues_cons, hp]))

/-- If every visited entry fails the multi-user filter, the nested loops
return the initial state. -/
theorem multiFoldIssues_id (env : TimeEnv) (date trackingIssue : String)
    (issues : List Issue) (st : MultiAggState)
    (h : ∀ p ∈ pairsOfIssues issues, multiIncluded env date p.2 = false) :
    issues.foldl
        (fun s issue => issue.timelogs.foldl (multiStep env date trackingIssue issue) s) st = st := by
  induction issues generalizing st with
  | nil => rfl
  | cons issue issues ih =>
      rw [List.foldl_cons]
      have hinner : ∀ (tls : List Timelog), (∀ tl ∈ tls, (issue, tl) ∈ pairsOfIssues (issue :: issues)) →
          tls.foldl (multiStep env date trackingIssue issue) st = st := by
        intro tls
        induction tls generalizing st with
        | nil => intro _; rfl
        | cons tl tls ih2 =>
            intro hmem
            rw [List.foldl_cons,
              multiStep_skip env date trackingIssue issue st tl (h _ (hmem tl (by simp)))]
            exact ih2 st (fun x hx => hmem x (by simp [hx]))
      rw [hinner issue.timelogs (fun tl htl => by
        simp only [pairsOfIssues_cons, List.mem_append, List.mem_map]
        exact Or.inl ⟨tl, htl, rfl⟩)]
      exact ih st (fun p hp => h p (by simp [pairsOfIssues_cons, hp]))

/-- Distribution of `pairsOfIssues` over list append. -/
theorem pairsOfIssues_append (l₁ l₂ : List Issue) :
    pairsOfIssues (l₁ ++ l₂) = pairsOfIssues l₁ ++ pairsOfIssues l₂ := by
  simp [pairsOfIssues]

/-- The single-user total over the entries of one issue does not depend on
the issue record itself. -/
theorem userTotalOf_map_pair (env : TimeEnv) (date username : String)
    (i₁ i₂ : Issue) (tls : List Timelog) :
    userTotalOf env date username (tls.map (fun t => (i₁, t))) =
      userTotalOf env date username (tls.map (fun t => (i₂, t))) := by
  induction tls with
  | nil => rfl
  | cons t ts ih => simp [List.map_cons, userTotalOf_cons, ih]

/-- The single-user lines over the entries of one issue depend on the
issue record only through its iid and title. -/
theorem userLinesOf_map_pair (env : TimeEnv) (date username iid title : String)
    (l₁ l₂ : List Timelog) (tls : List Timelog) :
    userLinesOf env date username (tls.map (fun t => ((⟨iid, title, l₁⟩ : Issue), t))) =
      userLinesOf env date username (tls.map (fun t => ((⟨iid, title, l₂⟩ : Issue), t))) := by
  induction tls with
  | nil => rfl
  | cons t ts ih => simp [List.map_cons, userLinesOf_cons, userLineOf, ih]

/-- The per-user dev total over the entries of one issue depends on the
issue record only through its title. -/
theorem devTotalOf_map_pair (env : TimeEnv) (date trackingIssue u iid title : String)
    (l₁ l₂ : List Timelog) (tls : List Timelog) :
    devTotalOf env date trackingIssue u (tls.map (fun t => ((⟨iid, title, l₁⟩ : Issue), t))) =
      devTotalOf env date trackingIssue u (tls.map (fun t => ((⟨iid, title, l₂⟩ : Issue), t))) := by
  induction tls with
  | nil => rfl
  | cons t ts ih => simp [List.map_cons, devTotalOf_cons, devPick, ih]

/-- The per-user tracking total over the entries of one issue depends on
the issue record only through its title. -/
theorem nonDevTotalOf_map_pair (env : TimeEnv) (date trackingIssue u iid title : String)
    (l₁ l₂ : List Timelog) (tls : List Timelog) :
    nonDevTotalOf env date trackingIssue u (tls.map (fun t => ((⟨iid, title, l₁⟩ : Issue), t))) =
      nonDevTotalOf env date trackingIssue u (tls.map (fun t => ((⟨iid, title, l₂⟩ : Issue), t))) := by
  induction tls with
  | nil => rfl
  | cons t ts ih => simp [List.map_cons, nonDevTotalOf_cons, nonDevPick, ih]

/-- The multi-user lines over the entries of one issue depend on the issue
record only through its iid and title. -/
theorem multiLinesOf_map_pair (env : TimeEnv) (date iid title : String)
    (l₁ l₂ : List Timelog) (tls : List Timelog) :
    multiLinesOf env date (tls.map (fun t => ((⟨iid, title, l₁⟩ : Issue), t))) =
      multiLinesOf env date (tls.map (fun t => ((⟨iid, title, l₂⟩ : Issue), t))) := by
  induction tls with
  | nil => rfl
  | cons t ts ih => simp [List.map_cons, multiLinesOf_cons, multiLineOf, ih]

/-- The single-user total of a pair list only depends on its observable
projection. -/
theorem userTotalOf_eq_obs (env : TimeEnv) (date username : String)
    (l : List (Issue × Timelog)) :
    userTotalOf env date username l = userTotalObs env date username (l.map obsOf) := by
  induction l with
  | nil => rfl
  | cons p l ih =>
      by_cases h : userIncluded env date username p.2 <;>
        simp [userTotalOf_cons, userTotalObs, obsOf, List.filter_cons, h, ih]

/-- The per-user dev total of a pair list only depends on its observable
projection. -/
theorem devTotalOf_eq_obs (env : TimeEnv) (date trackingIssue u : String)
    (l : List (Issue × Timelog)) :
    devTotalOf env date trackingIssue u l =
      devTotalObs env date trackingIssue u (l.map obsOf) := by
  have hpo : ∀ p : Issue × Timelog,
      devPickObs env date trackingIssue u (obsOf p) = devPick env date trackingIssue u p :=
    fun p => rfl
  induction l with
  | nil => rfl
  | cons p l ih =>
      by_cases h : devPick env date trackingIssue u p
      · simp [devTotalOf_cons, devTotalObs, List.filter_cons, hpo, h, ih]
        rfl
      · simp [devTotalOf_cons, devTotalObs, List.filter_cons, hpo, h, ih]

/-- The per-user tracking total of a pair list only depends on its
observable projection. -/
theorem nonDevTotalOf_eq_obs (env : TimeEnv) (date trackingIssue u : String)
    (l : List (Issue × Timelog)) :
    nonDevTotalOf env date trackingIssue u l =
      nonDevTotalObs env date trackingIssue u (l.map obsOf) := by
  have hpo : ∀ p : Issue × Timelog,
      nonDevPickObs env date trackingIssue u (obsOf p) = nonDevPick env date trackingIssue u p :=
    fun p => rfl
  induction l with
  | nil => rfl
  | cons p l ih =>
      by_cases h : nonDevPick env date trackingIssue u p
      · simp [nonDevTotalOf_cons, nonDevTotalObs, List.filter_cons, hpo, h, ih]
        rfl
      · simp [nonDevTotalOf_cons, nonDevTotalObs, List.filter_cons, hpo, h, ih]

/-- Permutation invariance of the single-user observable total. -/
theorem userTotalObs_perm (env : TimeEnv) (date username : String)
    {l₁ l₂ : List (String × String × Timelog)} (h : l₁.Perm l₂) :
    userTotalObs env date username l₁ = userTotalObs env date username l₂ :=
  List.Perm.sum_eq (List.Perm.map _ (List.Perm.filter _ h))

/-- Permutation invariance of the per-user dev observable total. -/
theorem devTotalObs_perm (env : TimeEnv) (date trackingIssue u : String)
    {l₁ l₂ : List (String × String × Timelog)} (h : l₁.Perm l₂) :
    devTotalObs env date trackingIssue u l₁ = devTotalObs env date trackingIssue u l₂ :=
  List.Perm.sum_eq (List.Perm.map _ (List.Perm.filter _ h))

/-- Permutation invariance of the per-user tracking observable total. -/
theorem nonDevTotalObs_perm (env : TimeEnv) (date trackingIssue u : String)
    {l₁ l₂ : List (String × String × Timelog)} (h : l₁.Perm l₂) :
    nonDevTotalObs env date trackingIssue u l₁ =
      nonDevTotalObs env date trackingIssue u l₂ :=
  List.Perm.sum_eq (List.Perm.map _ (List.Perm.filter _ h))

/-- C1 (counterexample): with cutoff day count 1 the cutoff date is
2025-10-10, and a timelog of today (2025-10-11) by the target user alice
is included by the code — it contributes 1 h to the total and produces a
per-entry line — although its local date differs from the cutoff date,
contradicting the claimed date-equality filter of single-user mode. -/
theorem single_user_equality_filter_counterexample :
    tlToday3600.username = "alice" ∧
    localSpentAt demoEnv tlToday3600.spentAt ≠ demoEnv.addDaysFmt (-1) ∧
    (getUserSpentTime demoEnv 1 "alice" dataOneToday).1 = 1 ∧
    (getUserSpentTime demoEnv 1 "alice" dataOneToday).2 =
      [⟨1, "2025-10-11", "1", "Feature work"⟩] := by
  have h1 : userIncluded demoEnv (demoEnv.addDaysFmt (-1)) "alice"
      ⟨3600, "2025-10-11T10:00:00+02:00", "alice"⟩ = true := by decide
  have h2 : localSpentAt demoEnv "2025-10-11T10:00:00+02:00" = "2025-10-11" := by decide
  have hrun : getUserSpentTime demoEnv 1 "alice" dataOneToday =
      (1, [⟨1, "2025-10-11", "1", "Feature work"⟩]) := by
    simp only [getUserSpentTime, getUserSpentTimeRun, dataOneToday, tlToday3600,
      List.foldl_cons, List.foldl_nil, userStep, h1, if_true, userLineOf, h2]
    norm_num [hoursOf]
  exact ⟨rfl, by decide, by rw [hrun], by rw [hrun]⟩

/-- C1 (amended): in single-user mode with cutoff day count N, an entry is
included — contributes `timeSpent/3600` to the total and produces a
per-entry line — iff its formatted local date is greater than or equal to
the cutoff date (today minus N days) in the byte-wise string order and its
username equals the target; in particular with N = 0 an entry whose local
date is below today is excluded even when the username matches. -/
theorem single_user_filter_is_since_cutoff (env : TimeEnv) (daysNum : Int)
    (username : String) (d : TimelogData) :
    getUserSpentTime env daysNum username d =
      (userTotalOf env (env.addDaysFmt (-daysNum)) username (pairs d),
       userLinesOf env (env.addDaysFmt (-daysNum)) username (pairs d)) ∧
    (∀ tl : Timelog, goStrGe (localSpentAt env tl.spentAt) (env.addDaysFmt 0) = false →
      userIncluded env (env.addDaysFmt 0) username tl = false) := by
  refine ⟨getUserSpentTime_eq env daysNum username d, ?_⟩
  intro tl h
  simp [userIncluded, h]

/-- Witness for the amended C1 at a concrete input: an entry of yesterday
fails the N = 0 filter although its username matches. -/
theorem single_user_filter_is_since_cutoff_witness :
    goStrGe (localSpentAt demoEnv tlYesterday.spentAt) (demoEnv.addDaysFmt 0) = false ∧
    userIncluded demoEnv (demoEnv.addDaysFmt 0) "alice" tlYesterday = false :=
  ⟨by decide,
   (single_user_filter_is_since_cutoff demoEnv 0 "alice" dataOneToday).2 tlYesterday (by decide)⟩

/-- C2: in multi-user mode with cutoff day count N, an entry is included
iff its formatted local date is greater than or equal to the cutoff date
(today minus N days) — an inclusive range up to the present — for every
user with no username filter: the emitted lines are exactly those of the
entries passing the date filter, and the bucket values of each user sum the
hours of the included entries of that user. -/
theorem multi_user_filter_since_cutoff (env : TimeEnv) (daysNum : Int)
    (trackingIssue : String) (d : TimelogData) :
    (getAllUsersSpentTime env daysNum trackingIssue d).2.2 =
      multiLinesOf env (env.addDaysFmt (-daysNum)) (pairs d) ∧
    (∀ u, mapGet (getAllUsersSpentTime env daysNum trackingIssue d).1 u =
      devTotalOf env (env.addDaysFmt (-daysNum)) trackingIssue u (pairs d)) ∧
    (∀ u, mapGet (getAllUsersSpentTime env daysNum trackingIssue d).2.1 u =
      nonDevTotalOf env (env.addDaysFmt (-daysNum)) trackingIssue u (pairs d)) :=
  ⟨getAllUsersSpentTime_lines env daysNum trackingIssue d,
   fun u => getAllUsersSpentTime_dev env daysNum trackingIssue d u,
   fun u => getAllUsersSpentTime_nonDev env daysNum trackingIssue d u⟩

/-- C5: neither aggregation mode mutates the fetched tree: running either
set of nested loops from any state leaves the tree component of the state
unchanged. -/
theorem aggregation_preserves_source_data (env : TimeEnv) (daysNum : Int)
    (username trackingIssue : String) (stU : UserAggState) (stM : MultiAggState) :
    (getUserSpentTimeRun env daysNum username stU).data = stU.data ∧
    (getAllUsersSpentTimeRun env daysNum trackingIssue stM).data = stM.data := by
  constructor
  · simp [getUserSpentTimeRun, userFoldIssues]
  · have h := (multiFoldIssues env (env.addDaysFmt (-daysNum)) trackingIssue
      stM.data.issues stM).1
    simpa [getAllUsersSpentTimeRun] using h

/-- C7: on the tree holding exactly two timelogs of 3600 s and 1800 s,
both with local date today and both by alice, single-user mode with
cutoff day 0 and target alice totals 1.5 hours. -/
theorem example_two_timelogs_total :
    localSpentAt demoEnv tlToday3600.spentAt = demoEnv.addDaysFmt 0 ∧
    localSpentAt demoEnv tlToday1800.spentAt = demoEnv.addDaysFmt 0 ∧
    tlToday3600.username = "alice" ∧ tlToday1800.username = "alice" ∧
    tlToday3600.timeSpent = 3600 ∧ tlToday1800.timeSpent = 1800 ∧
    (getUserSpentTime demoEnv 0 "alice" dataExample).1 = 3/2 := by
  refine ⟨by decide, by decide, rfl, rfl, rfl, rfl, ?_⟩
  have h1 : userIncluded demoEnv (demoEnv.addDaysFmt 0) "alice"
      ⟨3600, "2025-10-11T10:00:00+02:00", "alice"⟩ = true := by decide
  have h2 : userIncluded demoEnv (demoEnv.addDaysFmt 0) "alice"
      ⟨1800, "2025-10-11T08:30:00+02:00", "alice"⟩ = true := by decide
  simp [getUserSpentTime, getUserSpentTimeRun, dataExample, userStep, tlToday3600,
    tlToday1800, h1, h2]
  norm_num [hoursOf]

/-- C9: mode selection is decided solely by emptiness of the `ALL_USERS`
value: single-user mode with the authenticated username runs iff the value
is the empty string, and any non-empty value — including "0" and
"false" — selects multi-user mode. -/
theorem mode_selection_by_all_users_emptiness
    (getAllUsers currentUsername reportingIssue : String) :
    (dispatch getAllUsers currentUsername reportingIssue =
        AggCall.singleUser currentUsername ↔ getAllUsers = "") ∧
    dispatch "0" currentUsername reportingIssue = AggCall.allUsers reportingIssue ∧
    dispatch "false" currentUsername reportingIssue = AggCall.allUsers reportingIssue := by
  have h0 : (("0" : String) == "") = false := by decide
  have hf : (("false" : String) == "") = false := by decide
  refine ⟨?_, by simp [dispatch, h0], by simp [dispatch, hf]⟩
  by_cases h : getAllUsers = "" <;> simp [dispatch, h]

/-- C4: in multi-user mode an included entry whose issue title contains
the configured tracking substring is added to the tracking (non-dev)
bucket of that user, any other included entry to the dev bucket; in
particular the issue titled "Sprint Planning / TRACK-1" with configured
substring "TRACK-1" contributes to the tracking bucket. -/
theorem title_substring_classification (env : TimeEnv) (daysNum : Int)
    (trackingIssue : String) (d : TimelogData) :
    (∀ u, mapGet (getAllUsersSpentTime env daysNum trackingIssue d).2.1 u =
      nonDevTotalOf env (env.addDaysFmt (-daysNum)) trackingIssue u (pairs d)) ∧
    (∀ u, mapGet (getAllUsersSpentTime env daysNum trackingIssue d).1 u =
      devTotalOf env (env.addDaysFmt (-daysNum)) trackingIssue u (pairs d)) ∧
    goContains "Sprint Planning / TRACK-1" "TRACK-1" = true ∧
    mapGet (getAllUsersSpentTime demoEnv 0 "TRACK-1" dataTracking).2.1 "alice" = 1 ∧
    (getAllUsersSpentTime demoEnv 0 "TRACK-1" dataTracking).1 = [] := by
  have h1 : multiIncluded demoEnv (demoEnv.addDaysFmt 0)
      ⟨3600, "2025-10-11T10:00:00+02:00", "alice"⟩ = true := by decide
  have h2 : goContains "Sprint Planning / TRACK-1" "TRACK-1" = true := by decide
  refine ⟨fun u => getAllUsersSpentTime_nonDev env daysNum trackingIssue d u,
    fun u => getAllUsersSpentTime_dev env daysNum trackingIssue d u, h2, ?_, ?_⟩
  · simp [getAllUsersSpentTime, getAllUsersSpentTimeRun, dataTracking, multiStep,
      tlToday3600, h1, h2, mapAdd, mapGet]
    norm_num [hoursOf]
  · simp [getAllUsersSpentTime, getAllUsersSpentTimeRun, dataTracking, multiStep,
      tlToday3600, h1, h2, mapAdd, mapGet]

/-- C8: in multi-user mode with the empty tracking substring, the dev
bucket map stays literally empty and every included entry of a user is
summed in the tracking (non-dev) bucket of that user, regardless of the issue
title. -/
theorem empty_tracking_substring_all_tracking (env : TimeEnv) (daysNum : Int)
    (d : TimelogData) :
    (getAllUsersSpentTime env daysNum "" d).1 = [] ∧
    (∀ u, mapGet (getAllUsersSpentTime env daysNum "" d).2.1 u =
      (((pairs d).filter (fun p =>
          multiIncluded env (env.addDaysFmt (-daysNum)) p.2 && (p.2.username == u))).map
        (fun p => hoursOf p.2.timeSpent)).sum) := by
  constructor
  · have h := multiFoldIssues_dev_empty env (env.addDaysFmt (-daysNum)) d.issues
      ⟨d, [], [], []⟩
    simpa [getAllUsersSpentTime, getAllUsersSpentTimeRun] using h
  · intro u
    rw [getAllUsersSpentTime_nonDev]
    have hf : (pairs d).filter (nonDevPick env (env.addDaysFmt (-daysNum)) "" u) =
        (pairs d).filter (fun p =>
          multiIncluded env (env.addDaysFmt (-daysNum)) p.2 && (p.2.username == u)) :=
      List.filter_congr (fun p _ => by simp [nonDevPick, goContains_empty])
    simp only [nonDevTotalOf, hf]

/-- C10: a negative day count passes the integer parsing of `DAYS_NUM`
(shown at the concrete string "-5"), and when the resulting cutoff lies
strictly after today while the local date of every entry is today or earlier,
both aggregation modes include nothing: the single-user result is the zero
total with no lines, and the multi-user result is two empty bucket maps
with no lines. -/
theorem negative_days_future_cutoff_zero_totals (env : TimeEnv) (daysNum : Int)
    (username trackingIssue : String) (d : TimelogData)
    (hneg : daysNum < 0)
    (hfut : goStrGe (env.addDaysFmt 0) (env.addDaysFmt (-daysNum)) = false)
    (hpast : ∀ p ∈ pairs d,
      goStrGe (env.addDaysFmt 0) (localSpentAt env p.2.spentAt) = true) :
    goAtoi "-5" = some (-5) ∧
    getUserSpentTime env daysNum username d = (0, []) ∧
    getAllUsersSpentTime env daysNum trackingIssue d = ([], [], []) := by
  have hflt : ∀ p ∈ pairs d,
      goStrGe (localSpentAt env p.2.spentAt) (env.addDaysFmt (-daysNum)) = false := by
    intro p hp
    have h1 : goStrLtL (env.addDaysFmt 0).data (localSpentAt env p.2.spentAt).data = false := by
      simpa [goStrGe] using hpast p hp
    have h2 : goStrLtL (env.addDaysFmt 0).data (env.addDaysFmt (-daysNum)).data = true := by
      simpa [goStrGe] using hfut
    have h3 := goStrLtL_le_lt_trans _ _ _ h1 h2
    simp [goStrGe, h3]
  refine ⟨by decide, ?_, ?_⟩
  · have hui : ∀ p ∈ pairsOfIssues d.issues,
        userIncluded env (env.addDaysFmt (-daysNum)) username p.2 = false := by
      intro p hp
      simp [userIncluded, hflt p hp]
    simp [getUserSpentTime, getUserSpentTimeRun,
      userFoldIssues_id env (env.addDaysFmt (-daysNum)) username d.issues ⟨d, 0, []⟩ hui]
  · have hmi : ∀ p ∈ pairsOfIssues d.issues,
        multiIncluded env (env.addDaysFmt (-daysNum)) p.2 = false := by
      intro p hp
      simp [multiIncluded, hflt p hp]
    simp [getAllUsersSpentTime, getAllUsersSpentTimeRun,
      multiFoldIssues_id env (env.addDaysFmt (-daysNum)) trackingIssue d.issues
        ⟨d, [], [], []⟩ hmi]

/-- Witness for C10 at a concrete input: day count -2 on a tree whose
single entry is dated yesterday gives zero totals in both modes. -/
theorem negative_days_future_cutoff_zero_totals_witness :
    (-2 : Int) < 0 ∧
    goStrGe (demoEnv.addDaysFmt 0) (demoEnv.addDaysFmt (-(-2 : Int))) = false ∧
    getUserSpentTime demoEnv (-2) "alice" dataOneYesterday = (0, []) ∧
    getAllUsersSpentTime demoEnv (-2) "TRACK-1" dataOneYesterday = ([], [], []) := by
  refine ⟨by decide, by decide, ?_, ?_⟩
  · exact (negative_days_future_cutoff_zero_totals demoEnv (-2) "alice" "TRACK-1"
      dataOneYesterday (by decide) (by decide) (by decide)).2.1
  · exact (negative_days_future_cutoff_zero_totals demoEnv (-2) "alice" "TRACK-1"
      dataOneYesterday (by decide) (by decide) (by decide)).2.2

/-- C6: an entry whose spentAt string fails to parse does not abort the
aggregation; it is treated as the zero-value timestamp and, whenever the
zero date lies before the cutoff, it is silently skipped: removing it from
its issue changes neither the single-user result nor any multi-user
observable. -/
theorem unparseable_spentAt_skipped (env : TimeEnv) (daysNum : Int)
    (username trackingIssue iid ttl : String) (issues1 issues2 : List Issue)
    (pre post : List Timelog) (tl : Timelog)
    (hparse : env.parseLocalFmt tl.spentAt = none)
    (hzero : goStrGe env.zeroTimeFmt (env.addDaysFmt (-daysNum)) = false) :
    getUserSpentTime env daysNum username
        ⟨issues1 ++ (⟨iid, ttl, pre ++ tl :: post⟩ : Issue) :: issues2⟩ =
      getUserSpentTime env daysNum username
        ⟨issues1 ++ (⟨iid, ttl, pre ++ post⟩ : Issue) :: issues2⟩ ∧
    (getAllUsersSpentTime env daysNum trackingIssue
        ⟨issues1 ++ (⟨iid, ttl, pre ++ tl :: post⟩ : Issue) :: issues2⟩).2.2 =
      (getAllUsersSpentTime env daysNum trackingIssue
        ⟨issues1 ++ (⟨iid, ttl, pre ++ post⟩ : Issue) :: issues2⟩).2.2 ∧
    (∀ u, mapGet (getAllUsersSpentTime env daysNum trackingIssue
        ⟨issues1 ++ (⟨iid, ttl, pre ++ tl :: post⟩ : Issue) :: issues2⟩).1 u =
      mapGet (getAllUsersSpentTime env daysNum trackingIssue
        ⟨issues1 ++ (⟨iid, ttl, pre ++ post⟩ : Issue) :: issues2⟩).1 u) ∧
    (∀ u, mapGet (getAllUsersSpentTime env daysNum trackingIssue
        ⟨issues1 ++ (⟨iid, ttl, pre ++ tl :: post⟩ : Issue) :: issues2⟩).2.1 u =
      mapGet (getAllUsersSpentTime env daysNum trackingIssue
        ⟨issues1 ++ (⟨iid, ttl, pre ++ post⟩ : Issue) :: issues2⟩).2.1 u) := by
  have hl : localSpentAt env tl.spentAt = env.zeroTimeFmt := by
    simp [localSpentAt, hparse]
  have h1 : userIncluded env (env.addDaysFmt (-daysNum)) username tl = false := by
    simp [userIncluded, hl, hzero]
  have h2 : multiIncluded env (env.addDaysFmt (-daysNum)) tl = false := by
    simp [multiIncluded, hl, hzero]
  refine ⟨?_, ?_, ?_, ?_⟩
  · rw [getUserSpentTime_eq, getUserSpentTime_eq]
    simp only [pairs, pairsOfIssues_append, pairsOfIssues_cons, List.map_append,
      List.map_cons, userTotalOf_append, userLinesOf_append, userTotalOf_cons,
      userLinesOf_cons, h1, Bool.false_eq_true, if_false, Prod.mk.injEq]
    constructor
    · rw [userTotalOf_map_pair env (env.addDaysFmt (-daysNum)) username
        ⟨iid, ttl, pre ++ tl :: post⟩ ⟨iid, ttl, pre ++ post⟩ pre,
        userTotalOf_map_pair env (env.addDaysFmt (-daysNum)) username
        ⟨iid, ttl, pre ++ tl :: post⟩ ⟨iid, ttl, pre ++ post⟩ post]
    · rw [userLinesOf_map_pair env (env.addDaysFmt (-daysNum)) username iid ttl
        (pre ++ tl :: post) (pre ++ post) pre,
        userLinesOf_map_pair env (env.addDaysFmt (-daysNum)) username iid ttl
        (pre ++ tl :: post) (pre ++ post) post]
  · rw [getAllUsersSpentTime_lines, getAllUsersSpentTime_lines]
    simp only [pairs, pairsOfIssues_append, pairsOfIssues_cons, List.map_append,
      List.map_cons, multiLinesOf_append, multiLinesOf_cons, h2,
      Bool.false_eq_true, if_false, List.nil_append]
    rw [multiLinesOf_map_pair env (env.addDaysFmt (-daysNum)) iid ttl
        (pre ++ tl :: post) (pre ++ post) pre,
      multiLinesOf_map_pair env (env.addDaysFmt (-daysNum)) iid ttl
        (pre ++ tl :: post) (pre ++ post) post]
  · intro u
    rw [getAllUsersSpentTime_dev, getAllUsersSpentTime_dev]
    have hdp : devPick env (env.addDaysFmt (-daysNum)) trackingIssue u
        ((⟨iid, ttl, pre ++ tl :: post⟩ : Issue), tl) = false := by
      simp [devPick, h2]
    simp only [pairs, pairsOfIssues_append, pairsOfIssues_cons, List.map_append,
      List.map_cons, devTotalOf_append, devTotalOf_cons, hdp,
      Bool.false_eq_true, if_false, zero_add]
    rw [devTotalOf_map_pair env (env.addDaysFmt (-daysNum)) trackingIssue u iid ttl
        (pre ++ tl :: post) (pre ++ post) pre,
      devTotalOf_map_pair env (env.addDaysFmt (-daysNum)) trackingIssue u iid ttl
        (pre ++ tl :: post) (pre ++ post) post]
  · intro u
    rw [getAllUsersSpentTime_nonDev, getAllUsersSpentTime_nonDev]
    have hnp : nonDevPick env (env.addDaysFmt (-daysNum)) trackingIssue u
        ((⟨iid, ttl, pre ++ tl :: post⟩ : Issue), tl) = false := by
      simp [nonDevPick, h2]
    simp only [pairs, pairsOfIssues_append, pairsOfIssues_cons, List.map_append,
      List.map_cons, nonDevTotalOf_append, nonDevTotalOf_cons, hnp,
      Bool.false_eq_true, if_false, zero_add]
    rw [nonDevTotalOf_map_pair env (env.addDaysFmt (-daysNum)) trackingIssue u iid ttl
        (pre ++ tl :: post) (pre ++ post) pre,
      nonDevTotalOf_map_pair env (env.addDaysFmt (-daysNum)) trackingIssue u iid ttl
        (pre ++ tl :: post) (pre ++ post) post]

/-- Witness for C6 at a concrete input: dropping the unparseable entry
from an issue leaves the single-user result unchanged. -/
theorem unparseable_spentAt_skipped_witness :
    demoEnv.parseLocalFmt tlBad.spentAt = none ∧
    goStrGe demoEnv.zeroTimeFmt (demoEnv.addDaysFmt (-(0 : Int))) = false ∧
    getUserSpentTime demoEnv 0 "alice"
        ⟨[] ++ (⟨"1", "Feature work", [tlToday3600] ++ tlBad :: []⟩ : Issue) :: []⟩ =
      getUserSpentTime demoEnv 0 "alice"
        ⟨[] ++ (⟨"1", "Feature work", [tlToday3600] ++ []⟩ : Issue) :: []⟩ := by
  refine ⟨by decide, by decide, ?_⟩
  exact (unparseable_spentAt_skipped demoEnv 0 "alice" "TRACK-1" "1" "Feature work"
    [] [] [tlToday3600] [] tlBad (by decide) (by decide)).1

/-- C3 (counterexample): over the faithful binary32 model of the float32
accumulation of line 87, the single-user run on one included one-second
entry totals 9544372 * 2^(-35) hours — not exactly 1/3600 — and two runs
over the same multiset of included entries of one user (an observable
permutation: one entry of 2^24 hours and two of 0.75 hours) total
2^24 hours when the huge entry is summed first but 2^24 + 2 hours when it
is summed last, refuting both the exact-contribution and the
order-independence parts of the claim for the float32 arithmetic of the
program.  Totals are fixed-point multiples of 2^(-149). -/
theorem float32_contribution_order_counterexample :
    getUserSpentTimeF32 demoEnv 0 "alice" dataOneSecond * 3600 ≠ 2 ^ 149 ∧
    getUserSpentTimeF32 demoEnv 0 "alice" dataOneSecond = 9544372 * 2 ^ 114 ∧
    (obsPairs dataF32A).Perm (obsPairs dataF32B) ∧
    getUserSpentTimeF32 demoEnv 0 "alice" dataF32A = 2 ^ 173 ∧
    getUserSpentTimeF32 demoEnv 0 "alice" dataF32B = 8388609 * 2 ^ 150 ∧
    getUserSpentTimeF32 demoEnv 0 "alice" dataF32A ≠
      getUserSpentTimeF32 demoEnv 0 "alice" dataF32B :=
  ⟨by decide, by decide, by decide, by decide, by decide, by decide⟩

/-- C3 (amended): in the exact-rational idealization of the float32
accumulation, every included entry contributes exactly `timeSpent/3600`
to the accumulated total and the per-user totals of both modes are
invariant under permutations of the observable entries; the actual
binary32 contribution is the rounding of `float32(timeSpent)/3600`, which
coincides with `timeSpent/3600` at the dyadic worked-example values
(3600 s gives exactly 1 h, 1800 s exactly 0.5 h), where the binary32 run
also totals exactly 1.5 h. -/
theorem contribution_and_order_independence_amended (env : TimeEnv) (daysNum : Int)
    (username trackingIssue : String) (d d' : TimelogData)
    (hperm : (obsPairs d).Perm (obsPairs d')) :
    (getUserSpentTime env daysNum username d).1 =
      (((pairs d).filter (fun p =>
          userIncluded env (env.addDaysFmt (-daysNum)) username p.2)).map
        (fun p => hoursOf p.2.timeSpent)).sum ∧
    (getUserSpentTime env daysNum username d).1 =
      (getUserSpentTime env daysNum username d').1 ∧
    (∀ u, mapGet (getAllUsersSpentTime env daysNum trackingIssue d).1 u =
      mapGet (getAllUsersSpentTime env daysNum trackingIssue d').1 u) ∧
    (∀ u, mapGet (getAllUsersSpentTime env daysNum trackingIssue d).2.1 u =
      mapGet (getAllUsersSpentTime env daysNum trackingIssue d').2.1 u) ∧
    hoursOfF32 3600 = 2 ^ 149 ∧
    hoursOfF32 1800 = 2 ^ 148 ∧
    getUserSpentTimeF32 demoEnv 0 "alice" dataExample = 3 * 2 ^ 148 := by
  refine ⟨?_, ?_, ?_, ?_, by decide, by decide, by decide⟩
  · rw [getUserSpentTime_eq]
    rfl
  · rw [getUserSpentTime_eq, getUserSpentTime_eq]
    show userTotalOf env (env.addDaysFmt (-daysNum)) username (pairs d) =
      userTotalOf env (env.addDaysFmt (-daysNum)) username (pairs d')
    rw [userTotalOf_eq_obs, userTotalOf_eq_obs]
    exact userTotalObs_perm env (env.addDaysFmt (-daysNum)) username hperm
  · intro u
    rw [getAllUsersSpentTime_dev, getAllUsersSpentTime_dev,
      devTotalOf_eq_obs, devTotalOf_eq_obs]
    exact devTotalObs_perm env (env.addDaysFmt (-daysNum)) trackingIssue u hperm
  · intro u
    rw [getAllUsersSpentTime_nonDev, getAllUsersSpentTime_nonDev,
      nonDevTotalOf_eq_obs, nonDevTotalOf_eq_obs]
    exact nonDevTotalObs_perm env (env.addDaysFmt (-daysNum)) trackingIssue u hperm

/-- Witness for the amended C3 at a concrete input: the worked-example
tree and its reordering are observable permutations of each other and
give the same exact-idealization single-user total. -/
theorem contribution_and_order_independence_amended_witness :
    (obsPairs dataExample).Perm (obsPairs dataExampleRev) ∧
    (getUserSpentTime demoEnv 0 "alice" dataExample).1 =
      (getUserSpentTime demoEnv 0 "alice" dataExampleRev).1 :=
  ⟨by decide,
   (contribution_and_order_independence_amended demoEnv 0 "alice" "TRACK-1" dataExample
      dataExampleRev (by decide)).2.1⟩
